import Mathlib

/-!
Verification of the namespace-remapping filter (`HdPrefixingSceneIndex`,
`pxr/imaging/hd/prefixingSceneIndex.cpp`) against its specification.

The development shallowly embeds the data model and the operations of the
filter: the path algebra (`SdfPath`), the data-source hierarchy with the two
prefixing proxy classes, the filtering scene index with its query methods,
and the notification translation.  Theorems then settle the specified
properties (junction synthesis, delegation, round-trips, wrapping behavior,
notification translation, bounds safety).
-/

/-- A name token.  Modelled from the spec: `TfToken` (external string type)
is not under `src/`; tokens are plain strings with structural equality. -/
abbrev TfToken := String

/-- Sample time.  `HdSampledDataSource::Time` is a scalar time coordinate that
the embedded code only passes through, never computes with; it is modelled as
`Int`. -/
abbrev Time := Int

/-- Modelled from the spec: `SdfPath` (the Path Algebra of spec §3/§4.1) is
not under `src/`.  A path is either the distinguished empty path, or an
absolute/relative sequence of name tokens (`path true []` is the absolute
root `/`, `path false []` the reflexive relative path `.`).  Paths are value
types with structural equality. -/
inductive SdfPath where
  | empty : SdfPath
  | path (abs : Bool) (elems : List TfToken) : SdfPath
deriving DecidableEq, Repr

/-- `SdfPath::AbsoluteRootPath()`: the absolute root `/`. -/
def SdfPath.absoluteRootPath : SdfPath := .path true []

/-- `SdfPath::IsAbsolutePath()`. -/
def SdfPath.isAbsolutePath : SdfPath → Bool
  | .path true _ => true
  | _ => false

/-- Modelled from the spec: `SdfPath::HasPrefix(other)` — `self` has `other`
as a (non-strict) prefix.  The empty path is never a prefix and has no
prefixes; absoluteness must agree. -/
def SdfPath.hasPrefix : SdfPath → SdfPath → Bool
  | .path a es, .path b ps => (a == b) && ps.isPrefixOf es
  | _, _ => false

/-- Modelled from the spec: `SdfPath::ReplacePrefix(old, new)` — a pure
prefix-substring replacement on the token sequence, a no-op if `old` is not
a prefix of `self` (spec §3, §4.1). -/
def SdfPath.replacePrefix : SdfPath → SdfPath → SdfPath → SdfPath
  | .empty, _, _ => .empty
  | .path a es, .path b ps, newP =>
    if (a == b) && ps.isPrefixOf es then
      match newP with
      | .empty => .empty
      | .path c ns => .path c (ns ++ es.drop ps.length)
    else .path a es
  | .path a es, .empty, _ => .path a es

/-- Modelled from the spec: `SdfPath::MakeRelativePath(anchor)` — `self`
expressed relative to `anchor`.  Only the case where `anchor` is a prefix of
`self` is modelled (the embedded code only anchors at the absolute root);
other cases yield the empty path. -/
def SdfPath.makeRelativePath : SdfPath → SdfPath → SdfPath
  | .path a es, .path b ps =>
    if (a == b) && ps.isPrefixOf es then .path false (es.drop ps.length)
    else .empty
  | _, _ => .empty

/-- Modelled from the spec: `SdfPath::AppendPath(suffix)` — appends a
relative suffix; appending an empty or absolute suffix is an error yielding
the empty path. -/
def SdfPath.appendPath : SdfPath → SdfPath → SdfPath
  | _, .empty => .empty
  | _, .path true _ => .empty
  | .empty, _ => .empty
  | .path a es, .path false ss => .path a (es ++ ss)

/-- Modelled from the spec: `SdfPath::GetPrefixes()` — the ordered ancestor
chain from the first element below the root down to `self` inclusive (the
root itself is not included, as the spec's own junction examples require). -/
def SdfPath.getPrefixes : SdfPath → List SdfPath
  | .empty => []
  | .path a es => (List.range es.length).map (fun i => .path a (es.take (i + 1)))

/-- Modelled from the spec: `SdfPath::GetPathElementCount()`. -/
def SdfPath.getPathElementCount : SdfPath → Nat
  | .empty => 0
  | .path _ es => es.length

/-- A generic value cell (`VtValue`): either a structural path value or an
opaque value without path semantics. -/
inductive VtValue where
  | pathVal (p : SdfPath)
  | otherVal (tag : Nat)
deriving DecidableEq, Repr

/-- The data-source hierarchy.  The first three constructors are modelled
from the spec: the upstream value/container abstractions
(`HdContainerDataSource`, `HdTypedSampledDataSource<SdfPath>`, opaque data
sources, spec §3/§6) are not under `src/`.  The last two constructors embed
the two wrapper classes defined in `prefixingSceneIndex.cpp`:
`Hd_PrefixingSceneIndexContainerDataSource` (field `_prefix` is `dsPre`,
field `_inputDataSource` is `input`, a possibly null handle) and
`Hd_PrefixingSceneIndexPathDataSource` (likewise). -/
inductive HdDataSource where
  | container (entries : List (TfToken × HdDataSource))
  | pathDs (sample : Time → SdfPath) (sampleTimes : Time → Time → Bool × List Time)
  | otherDs (value : VtValue)
  | prefixingContainer (dsPre : SdfPath) (input : Option HdDataSource)
  | prefixingPath (dsPre : SdfPath) (input : Option HdDataSource)

/-- `HdContainerDataSource::Cast` succeeds exactly on containers, including
the wrapper class (which derives from `HdContainerDataSource`). -/
def isContainer : HdDataSource → Bool
  | .container _ => true
  | .prefixingContainer _ _ => true
  | _ => false

/-- `HdTypedSampledDataSource<SdfPath>::Cast` succeeds exactly on path-typed
sampled data sources, including the wrapper class. -/
def isPathDs : HdDataSource → Bool
  | .pathDs _ _ => true
  | .prefixingPath _ _ => true
  | _ => false

/-- `Has(name)` of a container data source.  A plain container reports
membership of the name; the wrapper (`Hd_PrefixingSceneIndexContainerDataSource::Has`)
delegates verbatim to its input and reports `false` on a null input. -/
def containerHas : HdDataSource → TfToken → Bool
  | .container es, n => es.any (fun e => e.1 == n)
  | .prefixingContainer _ (some ds), n => containerHas ds n
  | .prefixingContainer _ none, _ => false
  | _, _ => false

/-- `GetNames()` of a container data source.  The wrapper
(`Hd_PrefixingSceneIndexContainerDataSource::GetNames`) delegates verbatim
to its input and reports `[]` on a null input. -/
def containerGetNames : HdDataSource → List TfToken
  | .container es => es.map (fun e => e.1)
  | .prefixingContainer _ (some ds) => containerGetNames ds
  | .prefixingContainer _ none => []
  | _ => []

/-- `Get(name)` of a container data source.  A plain container returns the
named child; the wrapper (`Hd_PrefixingSceneIndexContainerDataSource::Get`)
fetches the child from its input and re-wraps child containers and
path-typed children with the same prefix, passing other children through
unchanged; a null input or missing child yields nothing. -/
def containerGet : HdDataSource → TfToken → Option HdDataSource
  | .container es, n => (es.find? (fun e => e.1 == n)).map (fun e => e.2)
  | .prefixingContainer dsPre (some ds), n =>
    match containerGet ds n with
    | none => none
    | some childSource =>
      if isContainer childSource then
        some (.prefixingContainer dsPre (some childSource))
      else if isPathDs childSource then
        some (.prefixingPath dsPre (some childSource))
      else some childSource
  | .prefixingContainer _ none, _ => none
  | _, _ => none

/-- `GetTypedValue(shutterOffset)` of a path-typed sampled data source.  The
wrapper (`Hd_PrefixingSceneIndexPathDataSource::GetTypedValue`) returns the
empty path on a null input; otherwise it fetches the inner value and, when
that value is absolute, replaces the absolute root by the prefix. -/
def getTypedValue : HdDataSource → Time → SdfPath
  | .pathDs sample _, t => sample t
  | .prefixingPath dsPre (some ds), t =>
    let result := getTypedValue ds t
    if result.isAbsolutePath then
      result.replacePrefix SdfPath.absoluteRootPath dsPre
    else result
  | .prefixingPath _ none, _ => SdfPath.empty
  | _, _ => SdfPath.empty

/-- `GetValue(shutterOffset)` of a sampled data source.  The wrapper
(`Hd_PrefixingSceneIndexPathDataSource::GetValue`) returns the typed value
wrapped in the generic value envelope. -/
def getValue : HdDataSource → Time → VtValue
  | .pathDs sample _, t => .pathVal (sample t)
  | .otherDs v, _ => v
  | .prefixingPath dsPre inp, t => .pathVal (getTypedValue (.prefixingPath dsPre inp) t)
  | _, _ => .otherVal 0

/-- `GetContributingSampleTimesForInterval` of a path-typed sampled data
source.  The wrapper delegates verbatim to its input and reports failure on
a null input. -/
def getContributingSampleTimes : HdDataSource → Time → Time → Bool × List Time
  | .pathDs _ g, s, e => g s e
  | .prefixingPath _ (some ds), s, e => getContributingSampleTimes ds s e
  | .prefixingPath _ none, _, _ => (false, [])
  | _, _, _ => (false, [])

/-- `HdSceneIndexPrim`: a type tag and an optional data source; the pair
`(empty token, null)` is the canonical absent-node sentinel. -/
structure HdSceneIndexPrim where
  primType : TfToken
  dataSource : Option HdDataSource

/-- Modelled from the spec: the upstream graph provider contract
(`HdSceneIndexBase`, spec §6) is not under `src/`; it answers node lookups
and child enumeration synchronously. -/
structure HdSceneIndexBase where
  getPrim : SdfPath → HdSceneIndexPrim
  getChildPrimPaths : SdfPath → List SdfPath

/-- `HdPrefixingSceneIndex`: holds the upstream handle (stored by the base
class `HdSingleInputFilteringSceneIndexBase`, not under `src/`, modelled
from the spec as a possibly null handle returned by `_GetInputSceneIndex`)
and the fixed prefix `_prefix` (here `scenePrefix`). -/
structure HdPrefixingSceneIndex where
  input : Option HdSceneIndexBase
  scenePrefix : SdfPath

/-- `HdPrefixingSceneIndex::_AddPathPrefix`. -/
def addPathPrefix (s : HdPrefixingSceneIndex) (primPath : SdfPath) : SdfPath :=
  primPath.replacePrefix SdfPath.absoluteRootPath s.scenePrefix

/-- `HdPrefixingSceneIndex::_RemovePathPrefix`. -/
def removePathPrefix (s : HdPrefixingSceneIndex) (primPath : SdfPath) : SdfPath :=
  primPath.replacePrefix s.scenePrefix SdfPath.absoluteRootPath

/-- `HdPrefixingSceneIndex::GetPrim`.  A query outside the virtual subtree
returns the absent sentinel; otherwise the upstream prim at the stripped
path is returned with a non-null data source wrapped by the container
proxy.  Dereferencing a null upstream handle has no defined result, which
the embedding records as `none`. -/
def GetPrim (s : HdPrefixingSceneIndex) (primPath : SdfPath) :
    Option HdSceneIndexPrim :=
  if !(primPath.hasPrefix s.scenePrefix) then
    some { primType := "", dataSource := none }
  else
    match s.input with
    | none => none
    | some inputScene =>
      let prim := inputScene.getPrim (removePathPrefix s primPath)
      some { primType := prim.primType,
             dataSource := prim.dataSource.map
               (fun ds => .prefixingContainer s.scenePrefix (some ds)) }

/-- `HdPrefixingSceneIndex::GetChildPrimPaths`.  Inside the subtree it
delegates to upstream and re-roots every child under the prefix; on a
strict ancestor of the prefix it synthesizes the next junction element
(`_prefix.GetPrefixes()[primPath.GetPathElementCount()]`, an `Option`
lookup recording that an out-of-bounds read has no defined result);
elsewhere it returns the empty list.  Dereferencing a null upstream handle
has no defined result (`none`). -/
def GetChildPrimPaths (s : HdPrefixingSceneIndex) (primPath : SdfPath) :
    Option (List SdfPath) :=
  if primPath.hasPrefix s.scenePrefix then
    match s.input with
    | none => none
    | some inputScene =>
      some ((inputScene.getChildPrimPaths (removePathPrefix s primPath)).map
        (fun p => s.scenePrefix.appendPath
          (p.makeRelativePath SdfPath.absoluteRootPath)))
  else if s.scenePrefix.hasPrefix primPath then
    match (s.scenePrefix.getPrefixes)[primPath.getPathElementCount]? with
    | some j => some [j]
    | none => none
  else
    some []

/-- `HdSceneIndexObserver::AddedPrimEntry`. -/
structure AddedPrimEntry where
  primPath : SdfPath
  primType : TfToken
deriving DecidableEq, Repr

/-- `HdSceneIndexObserver::RemovedPrimEntry`. -/
structure RemovedPrimEntry where
  primPath : SdfPath
deriving DecidableEq, Repr

/-- Modelled from the spec: `HdDataSourceLocator` (a sequence of tokens
naming a spot in a container hierarchy) is not under `src/`; it is only
passed through unchanged. -/
abbrev HdDataSourceLocator := List TfToken

/-- A set of dirty locators, passed through unchanged. -/
abbrev HdDataSourceLocatorSet := List HdDataSourceLocator

/-- `HdSceneIndexObserver::DirtiedPrimEntry`. -/
structure DirtiedPrimEntry where
  primPath : SdfPath
  dirtyLocators : HdDataSourceLocatorSet
deriving DecidableEq, Repr

/-- `HdPrefixingSceneIndex::_PrimsAdded`: the translated batch handed to
`_SendPrimsAdded` (observer delivery itself is in the base class, modelled
from the spec as delivering exactly this batch). -/
def primsAdded (s : HdPrefixingSceneIndex) (entries : List AddedPrimEntry) :
    List AddedPrimEntry :=
  entries.map (fun e => { primPath := addPathPrefix s e.primPath,
                          primType := e.primType })

/-- `HdPrefixingSceneIndex::_PrimsRemoved`: the translated batch handed to
`_SendPrimsRemoved`. -/
def primsRemoved (s : HdPrefixingSceneIndex) (entries : List RemovedPrimEntry) :
    List RemovedPrimEntry :=
  entries.map (fun e => { primPath := addPathPrefix s e.primPath })

/-- `HdPrefixingSceneIndex::_PrimsDirtied`: the translated batch handed to
`_SendPrimsDirtied`. -/
def primsDirtied (s : HdPrefixingSceneIndex) (entries : List DirtiedPrimEntry) :
    List DirtiedPrimEntry :=
  entries.map (fun e => { primPath := addPathPrefix s e.primPath,
                          dirtyLocators := e.dirtyLocators })

/-- Concrete fixture: the prefix `/A/B/C/D` used by the spec's examples. -/
def preABCD : SdfPath := .path true ["A", "B", "C", "D"]

/-- Concrete fixture: a path-typed leaf whose value is `/Foo` at all times. -/
def leafFoo : HdDataSource :=
  .pathDs (fun _ => .path true ["Foo"]) (fun _ _ => (false, []))

/-- Concrete fixture: a path-typed leaf whose value is the relative path
`Foo/Bar` at all times. -/
def leafRel : HdDataSource :=
  .pathDs (fun _ => .path false ["Foo", "Bar"]) (fun _ _ => (false, []))

/-- Concrete fixture: an upstream scene with a prim at `/Foo` and children
`[/X, /Y]` at the root. -/
def upstream0 : HdSceneIndexBase where
  getPrim := fun p =>
    if p = .path true ["Foo"] then
      { primType := "mesh", dataSource := some (.container []) }
    else
      { primType := "", dataSource := none }
  getChildPrimPaths := fun p =>
    if p = SdfPath.absoluteRootPath then [.path true ["X"], .path true ["Y"]]
    else []

/-- Concrete fixture: a prefixing scene index over `upstream0` with prefix
`/A/B/C/D`. -/
def si0 : HdPrefixingSceneIndex where
  input := some upstream0
  scenePrefix := preABCD

lemma isPrefixOf_eq_true_iff (l1 l2 : List TfToken) :
    l1.isPrefixOf l2 = true ↔ l1 <+: l2 :=
  List.isPrefixOf_iff_prefix

lemma hasPrefix_path_iff (a b : Bool) (es ps : List TfToken) :
    (SdfPath.path a es).hasPrefix (.path b ps) = true ↔ a = b ∧ ps <+: es := by
  simp [SdfPath.hasPrefix, isPrefixOf_eq_true_iff]

lemma junction_decomp (P q : SdfPath)
    (h1 : q.hasPrefix P = false) (h2 : P.hasPrefix q = true) :
    ∃ a qs c t, q = .path a qs ∧ P = .path a (qs ++ c :: t) := by
  cases P with
  | empty => simp [SdfPath.hasPrefix] at h2
  | path b ps =>
    cases q with
    | empty => simp [SdfPath.hasPrefix] at h2
    | path a qs =>
      rw [hasPrefix_path_iff] at h2
      obtain ⟨hb, hpre⟩ := h2
      subst hb
      obtain ⟨u, rfl⟩ := hpre
      cases u with
      | nil =>
        have hr : qs.isPrefixOf qs = true :=
          (isPrefixOf_eq_true_iff qs qs).mpr List.prefix_rfl
        simp [SdfPath.hasPrefix, hr] at h1
      | cons c t =>
        exact ⟨b, qs, c, t, rfl, rfl⟩

lemma getPrefixes_junction (a : Bool) (qs t : List TfToken) (c : TfToken) :
    ((SdfPath.path a (qs ++ c :: t)).getPrefixes)[qs.length]? =
      some (.path a (qs ++ [c])) := by
  have hlen : qs.length < (qs ++ c :: t).length := by
    simp
  have htake : (qs ++ c :: t).take (qs.length + 1) = qs ++ [c] := by
    simpa using @List.take_append _ qs (c :: t) 1
  simp [SdfPath.getPrefixes, List.getElem?_map, List.getElem?_range, hlen, htake]

/-- C1: for a query path `q` that does not have the prefix as a prefix,
`GetChildPrimPaths` returns, when the prefix has `q` as a (then necessarily
strict) prefix, the single-element list holding
`_prefix.GetPrefixes()[q.GetPathElementCount()]` — the next path element on
the unique chain from `q` down to the prefix (it extends `q` by one element
and is an ancestor of the prefix) — and, when `q` is disjoint from the
prefix's ancestor chain, the empty list. -/
theorem getChildPrimPaths_junction_synthesis
    (s : HdPrefixingSceneIndex) (q : SdfPath)
    (h1 : q.hasPrefix s.scenePrefix = false) :
    (s.scenePrefix.hasPrefix q = true →
      ∃ j, (s.scenePrefix.getPrefixes)[q.getPathElementCount]? = some j
        ∧ GetChildPrimPaths s q = some [j]
        ∧ j.hasPrefix q = true
        ∧ s.scenePrefix.hasPrefix j = true
        ∧ j.getPathElementCount = q.getPathElementCount + 1)
    ∧ (s.scenePrefix.hasPrefix q = false → GetChildPrimPaths s q = some []) := by
  constructor
  · intro h2
    obtain ⟨a, qs, c, t, hq, hP⟩ := junction_decomp s.scenePrefix q h1 h2
    subst hq
    have hget : (s.scenePrefix.getPrefixes)[(SdfPath.path a qs).getPathElementCount]?
        = some (.path a (qs ++ [c])) := by
      rw [hP]
      simpa [SdfPath.getPathElementCount] using getPrefixes_junction a qs t c
    refine ⟨.path a (qs ++ [c]), hget, ?_, ?_, ?_, ?_⟩
    · simp [GetChildPrimPaths, h1, h2, hget]
    · rw [hasPrefix_path_iff]
      exact ⟨rfl, List.prefix_append qs [c]⟩
    · rw [hP, hasPrefix_path_iff]
      exact ⟨rfl, ⟨t, by simp⟩⟩
    · simp [SdfPath.getPathElementCount]
  · intro h2
    simp [GetChildPrimPaths, h1, h2]

/-- Witness for C1: with prefix `/A/B/C/D`, `GetChildPrimPaths(/) = [/A]`,
`GetChildPrimPaths(/A/B) = [/A/B/C]`, and `GetChildPrimPaths(/Z) = []`. -/
theorem getChildPrimPaths_junction_synthesis_witness :
    GetChildPrimPaths si0 SdfPath.absoluteRootPath = some [.path true ["A"]]
    ∧ GetChildPrimPaths si0 (.path true ["A", "B"]) =
        some [.path true ["A", "B", "C"]]
    ∧ GetChildPrimPaths si0 (.path true ["Z"]) = some [] := by
  refine ⟨?_, ?_, ?_⟩
  · obtain ⟨j, hj, hres, -, -, -⟩ :=
      (getChildPrimPaths_junction_synthesis si0 SdfPath.absoluteRootPath
        (by decide)).1 (by decide)
    rw [show (si0.scenePrefix.getPrefixes)[SdfPath.absoluteRootPath.getPathElementCount]?
        = some (SdfPath.path true ["A"]) from rfl] at hj
    cases hj
    exact hres
  · obtain ⟨j, hj, hres, -, -, -⟩ :=
      (getChildPrimPaths_junction_synthesis si0 (.path true ["A", "B"])
        (by decide)).1 (by decide)
    rw [show (si0.scenePrefix.getPrefixes)[(SdfPath.path true ["A", "B"]).getPathElementCount]?
        = some (SdfPath.path true ["A", "B", "C"]) from rfl] at hj
    cases hj
    exact hres
  · exact (getChildPrimPaths_junction_synthesis si0 (.path true ["Z"])
      (by decide)).2 (by decide)

/-- C10: the junction branch of `GetChildPrimPaths` only indexes
`_prefix.GetPrefixes()` in bounds: under the branch conditions, the query
path's element count is strictly below the length of the prefix's ancestor
sequence, the lookup yields a value, and the query has a defined result. -/
theorem junction_index_in_bounds (s : HdPrefixingSceneIndex) (q : SdfPath)
    (h1 : q.hasPrefix s.scenePrefix = false)
    (h2 : s.scenePrefix.hasPrefix q = true) :
    q.getPathElementCount < (s.scenePrefix.getPrefixes).length
    ∧ ((s.scenePrefix.getPrefixes)[q.getPathElementCount]?).isSome = true
    ∧ GetChildPrimPaths s q ≠ none := by
  obtain ⟨a, qs, c, t, hq, hP⟩ := junction_decomp s.scenePrefix q h1 h2
  subst hq
  have hget : (s.scenePrefix.getPrefixes)[(SdfPath.path a qs).getPathElementCount]?
      = some (.path a (qs ++ [c])) := by
    rw [hP]
    simpa [SdfPath.getPathElementCount] using getPrefixes_junction a qs t c
  refine ⟨?_, ?_, ?_⟩
  · rw [hP]
    simp [SdfPath.getPathElementCount, SdfPath.getPrefixes]
  · simp [hget]
  · simp [GetChildPrimPaths, h1, h2, hget]

/-- Witness for C10 at prefix `/A/B/C/D` and query `/A/B`. -/
theorem junction_index_in_bounds_witness :
    (SdfPath.path true ["A", "B"]).getPathElementCount <
        (si0.scenePrefix.getPrefixes).length
    ∧ ((si0.scenePrefix.getPrefixes)[(SdfPath.path true ["A", "B"]).getPathElementCount]?).isSome
        = true
    ∧ GetChildPrimPaths si0 (.path true ["A", "B"]) ≠ none :=
  junction_index_in_bounds si0 (.path true ["A", "B"]) (by decide) (by decide)

/-- C4: with a non-empty prefix, for every absolute upstream path `p`,
`_RemovePathPrefix(_AddPathPrefix(p)) = p`; and for every virtual path `q`
having the prefix as a prefix, `_AddPathPrefix(_RemovePathPrefix(q)) = q`. -/
theorem roundTrip_addRemove (s : HdPrefixingSceneIndex)
    (h : s.scenePrefix ≠ SdfPath.empty) :
    (∀ p, p.isAbsolutePath = true →
        removePathPrefix s (addPathPrefix s p) = p)
    ∧ (∀ q, q.hasPrefix s.scenePrefix = true →
        addPathPrefix s (removePathPrefix s q) = q) := by
  constructor
  · intro p hp
    cases p with
    | empty => simp [SdfPath.isAbsolutePath] at hp
    | path a es =>
      cases a with
      | false => simp [SdfPath.isAbsolutePath] at hp
      | true =>
        cases hP : s.scenePrefix with
        | empty => exact absurd hP h
        | path c ns =>
          simp [addPathPrefix, removePathPrefix, SdfPath.absoluteRootPath,
            SdfPath.replacePrefix, hP, isPrefixOf_eq_true_iff,
            List.prefix_append, List.drop_left]
  · intro q hq
    cases hPq : s.scenePrefix with
    | empty => rw [hPq] at hq; simp [SdfPath.hasPrefix] at hq
    | path b ps =>
      cases q with
      | empty => simp [SdfPath.hasPrefix] at hq
      | path a qs =>
        rw [hPq, hasPrefix_path_iff] at hq
        obtain ⟨rfl, ⟨u, rfl⟩⟩ := hq
        simp [addPathPrefix, removePathPrefix, SdfPath.absoluteRootPath,
          SdfPath.replacePrefix, hPq, isPrefixOf_eq_true_iff,
          List.prefix_append, List.drop_left]

/-- Witness for C4: with prefix `/A/B/C/D`, the round trips at `/Foo` and at
`/A/B/C/D/Bar`. -/
theorem roundTrip_addRemove_witness :
    removePathPrefix si0 (addPathPrefix si0 (.path true ["Foo"]))
        = .path true ["Foo"]
    ∧ addPathPrefix si0 (removePathPrefix si0
        (.path true ["A", "B", "C", "D", "Bar"]))
        = .path true ["A", "B", "C", "D", "Bar"] :=
  ⟨(roundTrip_addRemove si0 (by decide)).1 _ (by decide),
   (roundTrip_addRemove si0 (by decide)).2 _ (by decide)⟩

lemma getChildPrimPaths_junction_isSome (s : HdPrefixingSceneIndex)
    (q : SdfPath) (h1 : q.hasPrefix s.scenePrefix = false)
    (h2 : s.scenePrefix.hasPrefix q = true) :
    ∃ j, GetChildPrimPaths s q = some [j] := by
  obtain ⟨a, qs, c, t, hq, hP⟩ := junction_decomp s.scenePrefix q h1 h2
  subst hq
  have hget : (s.scenePrefix.getPrefixes)[(SdfPath.path a qs).getPathElementCount]?
      = some (.path a (qs ++ [c])) := by
    rw [hP]
    simpa [SdfPath.getPathElementCount] using getPrefixes_junction a qs t c
  exact ⟨.path a (qs ++ [c]), by simp [GetChildPrimPaths, h1, h2, hget]⟩

/-- C5 counterexample: with a null upstream handle and the query path equal
to the prefix (inside the virtual subtree), both `GetPrim` and
`GetChildPrimPaths` dereference the null handle unconditionally, so neither
query has a defined answer — contradicting the claim that every query
degrades to its sentinel/empty result. -/
theorem nullUpstream_no_result_cex :
    GetPrim { input := none, scenePrefix := preABCD } preABCD = none
    ∧ GetChildPrimPaths { input := none, scenePrefix := preABCD } preABCD
        = none := by
  exact ⟨rfl, rfl⟩

/-- C5 (amended): with a null upstream handle, a query whose path does not
have the prefix as a prefix still terminates with its well-defined answer
without consulting upstream — `GetPrim` returns the absent sentinel and
`GetChildPrimPaths` returns its junction or empty answer; queries inside
the virtual subtree, however, dereference the null handle and have no
defined result. -/
theorem nullUpstream_outside_subtree (s : HdPrefixingSceneIndex)
    (h : s.input = none) (q : SdfPath)
    (hq : q.hasPrefix s.scenePrefix = false) :
    GetPrim s q = some { primType := "", dataSource := none }
    ∧ (GetChildPrimPaths s q).isSome = true := by
  refine ⟨by simp [GetPrim, hq], ?_⟩
  by_cases h2 : s.scenePrefix.hasPrefix q = true
  · obtain ⟨j, hj⟩ := getChildPrimPaths_junction_isSome s q hq h2
    simp [hj]
  · have h2' : s.scenePrefix.hasPrefix q = false := by
      cases hb : s.scenePrefix.hasPrefix q
      · rfl
      · exact absurd hb h2
    simp [GetChildPrimPaths, hq, h2']

/-- Witness for the amended C5: null upstream, prefix `/A/B/C/D`, query
`/Z` (outside the subtree and its ancestor chain). -/
theorem nullUpstream_outside_subtree_witness :
    GetPrim { input := none, scenePrefix := preABCD } (.path true ["Z"])
        = some { primType := "", dataSource := none }
    ∧ (GetChildPrimPaths { input := none, scenePrefix := preABCD }
        (.path true ["Z"])).isSome = true :=
  nullUpstream_outside_subtree { input := none, scenePrefix := preABCD }
    rfl (.path true ["Z"]) (by decide)

/-- C6: `GetPrim` returns the absent-node sentinel for every query path
outside the virtual subtree; inside, it returns the upstream prim at the
stripped path with the type tag unchanged and a non-null data source
wrapped by the container proxy bound to the prefix (a null upstream data
source stays null). -/
theorem getPrim_wraps_upstream (s : HdPrefixingSceneIndex)
    (u : HdSceneIndexBase) (hu : s.input = some u) (q : SdfPath) :
    (q.hasPrefix s.scenePrefix = false →
      GetPrim s q = some { primType := "", dataSource := none })
    ∧ (q.hasPrefix s.scenePrefix = true →
      GetPrim s q = some
        { primType := (u.getPrim (removePathPrefix s q)).primType,
          dataSource := (u.getPrim (removePathPrefix s q)).dataSource.map
            (fun ds => .prefixingContainer s.scenePrefix (some ds)) }) := by
  constructor
  · intro hq
    simp [GetPrim, hq]
  · intro hq
    simp [GetPrim, hq, hu]

/-- Witness for C6: with prefix `/A/B/C/D` over `upstream0`, the query `/Q`
is absent, and `/A/B/C/D/Foo` returns the upstream prim at `/Foo` with its
container wrapped. -/
theorem getPrim_wraps_upstream_witness :
    GetPrim si0 (.path true ["Q"]) = some { primType := "", dataSource := none }
    ∧ GetPrim si0 (.path true ["A", "B", "C", "D", "Foo"]) = some
        { primType := "mesh",
          dataSource := some (.prefixingContainer preABCD
            (some (.container []))) } :=
  ⟨(getPrim_wraps_upstream si0 upstream0 rfl (.path true ["Q"])).1 (by decide),
   (getPrim_wraps_upstream si0 upstream0 rfl
      (.path true ["A", "B", "C", "D", "Foo"])).2 (by decide)⟩

/-- C7: inside the virtual subtree, `GetChildPrimPaths` delegates to the
upstream child list at the stripped path and re-roots every child as
`_prefix.AppendPath(c.MakeRelativePath(root))`, preserving upstream order;
re-rooting an absolute child concatenates the prefix's elements with the
child's elements. -/
theorem getChildPrimPaths_delegation (s : HdPrefixingSceneIndex)
    (u : HdSceneIndexBase) (hu : s.input = some u) (q : SdfPath)
    (hq : q.hasPrefix s.scenePrefix = true) :
    GetChildPrimPaths s q = some
      ((u.getChildPrimPaths (removePathPrefix s q)).map
        (fun c => s.scenePrefix.appendPath
          (c.makeRelativePath SdfPath.absoluteRootPath)))
    ∧ (∀ ps cs, s.scenePrefix = .path true ps →
        s.scenePrefix.appendPath ((SdfPath.path true cs).makeRelativePath
          SdfPath.absoluteRootPath) = .path true (ps ++ cs)) := by
  constructor
  · simp [GetChildPrimPaths, hq, hu]
  · intro ps cs hP
    rw [hP]
    simp [SdfPath.makeRelativePath, SdfPath.appendPath,
      SdfPath.absoluteRootPath, isPrefixOf_eq_true_iff]

/-- Witness for C7: with prefix `/A/B/C/D` and upstream children `[/X, /Y]`
of the root, `GetChildPrimPaths(/A/B/C/D) = [/A/B/C/D/X, /A/B/C/D/Y]`. -/
theorem getChildPrimPaths_delegation_witness :
    GetChildPrimPaths si0 preABCD =
      some [.path true ["A", "B", "C", "D", "X"],
            .path true ["A", "B", "C", "D", "Y"]] :=
  (getChildPrimPaths_delegation si0 upstream0 rfl preABCD (by decide)).1

/-- C3: each notification kind is forwarded as a batch of equal length in
the same relative order: the i-th output entry carries the i-th input path
with the prefix added (`_AddPathPrefix`) and all non-path fields (type tag,
dirty-locator set) unchanged. -/
theorem notification_batches_translated (s : HdPrefixingSceneIndex)
    (adds : List AddedPrimEntry) (rems : List RemovedPrimEntry)
    (dirts : List DirtiedPrimEntry) :
    ((primsAdded s adds).length = adds.length
      ∧ ∀ (i : Nat) (e : AddedPrimEntry), adds[i]? = some e →
          (primsAdded s adds)[i]? = some
            { primPath := addPathPrefix s e.primPath, primType := e.primType })
    ∧ ((primsRemoved s rems).length = rems.length
      ∧ ∀ (i : Nat) (e : RemovedPrimEntry), rems[i]? = some e →
          (primsRemoved s rems)[i]? = some
            { primPath := addPathPrefix s e.primPath })
    ∧ ((primsDirtied s dirts).length = dirts.length
      ∧ ∀ (i : Nat) (e : DirtiedPrimEntry), dirts[i]? = some e →
          (primsDirtied s dirts)[i]? = some
            { primPath := addPathPrefix s e.primPath,
              dirtyLocators := e.dirtyLocators }) := by
  refine ⟨⟨by simp [primsAdded], ?_⟩, ⟨by simp [primsRemoved], ?_⟩,
    ⟨by simp [primsDirtied], ?_⟩⟩
  · intro i e he
    simp [primsAdded, List.getElem?_map, he]
  · intro i e he
    simp [primsRemoved, List.getElem?_map, he]
  · intro i e he
    simp [primsDirtied, List.getElem?_map, he]

/-- Concrete fixture: an added-prims batch `[(/X, m), (/Y, n)]`. -/
def addsX : List AddedPrimEntry :=
  [⟨.path true ["X"], "m"⟩, ⟨.path true ["Y"], "n"⟩]

/-- Concrete fixture: a removed-prims batch `[/X]`. -/
def remsX : List RemovedPrimEntry := [⟨.path true ["X"]⟩]

/-- Concrete fixture: a dirtied-prims batch `[(/X, visibility)]`. -/
def dirtsX : List DirtiedPrimEntry := [⟨.path true ["X"], [["visibility"]]⟩]

/-- Witness for C3: the spec's example batch under prefix `/A/B/C/D`. -/
theorem notification_batches_translated_witness :
    (primsAdded si0 addsX).length = 2
    ∧ (primsAdded si0 addsX)[0]? =
        some ⟨.path true ["A", "B", "C", "D", "X"], "m"⟩
    ∧ (primsAdded si0 addsX)[1]? =
        some ⟨.path true ["A", "B", "C", "D", "Y"], "n"⟩
    ∧ (primsRemoved si0 remsX)[0]? =
        some ⟨.path true ["A", "B", "C", "D", "X"]⟩
    ∧ (primsDirtied si0 dirtsX)[0]? =
        some ⟨.path true ["A", "B", "C", "D", "X"], [["visibility"]]⟩ :=
  ⟨(notification_batches_translated si0 addsX remsX dirtsX).1.1,
   (notification_batches_translated si0 addsX remsX dirtsX).1.2 0 _ rfl,
   (notification_batches_translated si0 addsX remsX dirtsX).1.2 1 _ rfl,
   (notification_batches_translated si0 addsX remsX dirtsX).2.1.2 0 _ rfl,
   (notification_batches_translated si0 addsX remsX dirtsX).2.2.2 0 _ rfl⟩

/-- C8: the leaf proxy returns the empty path on a null input; otherwise it
rewrites an absolute inner value by `ReplacePrefix(root, prefix)` — for an
absolute prefix this prepends the prefix's elements — returns a relative
inner value unchanged, and `GetValue` is always the typed value wrapped in
the generic value envelope. -/
theorem pathDataSource_rewrite (pre : SdfPath) (t : Time) :
    (getTypedValue (.prefixingPath pre none) t = SdfPath.empty)
    ∧ (∀ inputDs : HdDataSource,
        (getTypedValue inputDs t).isAbsolutePath = true →
        getTypedValue (.prefixingPath pre (some inputDs)) t
          = (getTypedValue inputDs t).replacePrefix SdfPath.absoluteRootPath pre)
    ∧ (∀ inputDs : HdDataSource, ∀ ps es,
        pre = .path true ps → getTypedValue inputDs t = .path true es →
        getTypedValue (.prefixingPath pre (some inputDs)) t
          = .path true (ps ++ es))
    ∧ (∀ inputDs : HdDataSource,
        (getTypedValue inputDs t).isAbsolutePath = false →
        getTypedValue (.prefixingPath pre (some inputDs)) t
          = getTypedValue inputDs t)
    ∧ (∀ inp : Option HdDataSource,
        getValue (.prefixingPath pre inp) t
          = .pathVal (getTypedValue (.prefixingPath pre inp) t)) := by
  refine ⟨rfl, ?_, ?_, ?_, ?_⟩
  · intro inputDs habs
    simp [getTypedValue, habs]
  · intro inputDs ps es hpre hval
    subst hpre
    simp [getTypedValue, hval, SdfPath.isAbsolutePath, SdfPath.replacePrefix,
      SdfPath.absoluteRootPath, isPrefixOf_eq_true_iff]
  · intro inputDs hrel
    simp [getTypedValue, hrel]
  · intro inp
    simp [getValue]

/-- Witness for C8: with prefix `/A/B/C/D`, the absolute leaf value `/Foo`
becomes `/A/B/C/D/Foo`, the relative leaf value `Foo/Bar` is unchanged, a
null input yields the empty path, and `GetValue` wraps the typed value. -/
theorem pathDataSource_rewrite_witness :
    getTypedValue (.prefixingPath preABCD none) 0 = SdfPath.empty
    ∧ getTypedValue (.prefixingPath preABCD (some leafFoo)) 0
        = .path true ["A", "B", "C", "D", "Foo"]
    ∧ getTypedValue (.prefixingPath preABCD (some leafRel)) 0
        = .path false ["Foo", "Bar"]
    ∧ getValue (.prefixingPath preABCD (some leafFoo)) 0
        = .pathVal (.path true ["A", "B", "C", "D", "Foo"]) :=
  ⟨(pathDataSource_rewrite preABCD 0).1,
   (pathDataSource_rewrite preABCD 0).2.2.1 leafFoo ["A", "B", "C", "D"]
     ["Foo"] rfl rfl,
   (pathDataSource_rewrite preABCD 0).2.2.2.1 leafRel (by decide),
   (pathDataSource_rewrite preABCD 0).2.2.2.2 (some leafFoo)⟩

/-- C9: dispatch of the container proxy's `Get`: nothing on a null wrapped
container or a missing child; a new container proxy with the same prefix
for a container child; a leaf proxy with the same prefix for a path-typed
child; and the identical child handle unchanged otherwise. -/
theorem containerGet_dispatch (pre : SdfPath) (n : TfToken) :
    (containerGet (.prefixingContainer pre none) n = none)
    ∧ (∀ c : HdDataSource, containerGet c n = none →
        containerGet (.prefixingContainer pre (some c)) n = none)
    ∧ (∀ c child, containerGet c n = some child → isContainer child = true →
        containerGet (.prefixingContainer pre (some c)) n
          = some (.prefixingContainer pre (some child)))
    ∧ (∀ c child, containerGet c n = some child → isContainer child = false →
        isPathDs child = true →
        containerGet (.prefixingContainer pre (some c)) n
          = some (.prefixingPath pre (some child)))
    ∧ (∀ c child, containerGet c n = some child → isContainer child = false →
        isPathDs child = false →
        containerGet (.prefixingContainer pre (some c)) n = some child) := by
  refine ⟨rfl, ?_, ?_, ?_, ?_⟩
  · intro c h
    simp [containerGet, h]
  · intro c child h hc
    simp [containerGet, h, hc]
  · intro c child h hc hp
    simp [containerGet, h, hc, hp]
  · intro c child h hc hp
    simp [containerGet, h, hc, hp]

/-- Concrete fixture: an upstream container with a container child, a
path-typed child, and an opaque child. -/
def cont0 : HdDataSource :=
  .container [("sub", .container []), ("ref", leafFoo),
              ("op", .otherDs (.otherVal 7))]

/-- Witness for C9 on `cont0` under prefix `/A/B/C/D`: the container child
is re-wrapped, the path child becomes a leaf proxy, the opaque child passes
through unchanged, and a missing name yields nothing. -/
theorem containerGet_dispatch_witness :
    containerGet (.prefixingContainer preABCD none) "sub" = none
    ∧ containerGet (.prefixingContainer preABCD (some cont0)) "missing" = none
    ∧ containerGet (.prefixingContainer preABCD (some cont0)) "sub"
        = some (.prefixingContainer preABCD (some (.container [])))
    ∧ containerGet (.prefixingContainer preABCD (some cont0)) "ref"
        = some (.prefixingPath preABCD (some leafFoo))
    ∧ containerGet (.prefixingContainer preABCD (some cont0)) "op"
        = some (.otherDs (.otherVal 7)) :=
  ⟨(containerGet_dispatch preABCD "sub").1,
   (containerGet_dispatch preABCD "missing").2.1 cont0 rfl,
   (containerGet_dispatch preABCD "sub").2.2.1 cont0 (.container []) rfl rfl,
   (containerGet_dispatch preABCD "ref").2.2.2.1 cont0 leafFoo rfl rfl rfl,
   (containerGet_dispatch preABCD "op").2.2.2.2 cont0 (.otherDs (.otherVal 7))
     rfl rfl rfl⟩

/-- Concrete fixture: the prefix `/A`. -/
def preA : SdfPath := .path true ["A"]

/-- C2 counterexample: wrapping an already-wrapped path-typed leaf a second
time with the same prefix `/A` is observable — the absolute value `/Foo`
reads back as `/A/Foo` through one wrap but as `/A/A/Foo` through two, so
the doubly-wrapped leaf does not agree with the singly-wrapped one. -/
theorem doubleWrap_not_idempotent_cex :
    getTypedValue (.prefixingPath preA (some (.prefixingPath preA
        (some leafFoo)))) 0
      ≠ getTypedValue (.prefixingPath preA (some leafFoo)) 0 := by
  decide

/-- C2 (amended): re-wrapping with the same prefix preserves the `Has` and
`GetNames` answers, but is not idempotent for values reached through `Get`:
a path-typed leaf is prefixed once per wrapping layer — the typed value of
the doubly-wrapped leaf is the singly-wrapped value with
`ReplacePrefix(root, prefix)` applied once more whenever that value is
absolute. -/
theorem doubleWrap_behavior (pre : SdfPath) (inputDs : HdDataSource) :
    (∀ n, containerHas (.prefixingContainer pre (some (.prefixingContainer
          pre (some inputDs)))) n
        = containerHas (.prefixingContainer pre (some inputDs)) n)
    ∧ containerGetNames (.prefixingContainer pre (some (.prefixingContainer
          pre (some inputDs))))
        = containerGetNames (.prefixingContainer pre (some inputDs))
    ∧ (∀ t, getTypedValue (.prefixingPath pre (some (.prefixingPath pre
          (some inputDs)))) t
        = (if (getTypedValue (.prefixingPath pre (some inputDs))
              t).isAbsolutePath then
            (getTypedValue (.prefixingPath pre (some inputDs)) t).replacePrefix
              SdfPath.absoluteRootPath pre
          else getTypedValue (.prefixingPath pre (some inputDs)) t)) := by
  refine ⟨fun n => rfl, rfl, fun t => rfl⟩
